import Mathlib

/-!
Verification development for the Summify pipeline (src/main.go).

The Go program fetches video descriptors from a playlist, processes them
concurrently under a semaphore of capacity `ConcurrencyLimit`, and prints a
report in the original input order.  Below we give a shallow embedding of:

* `getVideoTranscript` (src/main.go lines 146-237): the retrying transcript
  acquirer.  External effects (the `yt-dlp` invocation, the filesystem glob,
  the VTT parse) are supplied by an oracle environment `FetchEnv`; the
  embedding additionally records how many times the external command was run
  and how many retry delays were slept, so that call-count claims can be
  stated.
* `summarizeTranscriptWithGemini` (lines 240-261): the external generate call
  is an oracle returning either an error or a response (candidates/parts).
* the worker goroutine body (lines 330-379) as the pure function
  `workerBody`.
* the coordinator of `main` (lines 321-391) as a small-step transition
  relation `Step` on `CoordState`: dispatching acquires a semaphore slot,
  workers send their result to the buffered channel and then release their
  slot, the channel is closed once all workers released, and the main
  goroutine drains the channel into the results map.
* the report loop (lines 393-423) as `reportEntry` / `successCount` /
  `errorCount`.
-/

namespace Summify

/-- A playlist entry: `VideoDetails` of src/main.go (lines 55-58). -/
structure VideoDetails where
  ID : String
  Title : String
deriving DecidableEq, Repr

/-- Errors produced inside `getVideoTranscript` (each constructor is one of
its `fmt.Errorf` return sites). -/
inductive TranscriptErr where
  | mkdirFail (e : String)
  | ytdlpFail (lastErr : String) (lastOutput : String)
  | globFail (e : String)
  | openFail (e : String)
deriving DecidableEq, Repr

/-- Errors produced inside `summarizeTranscriptWithGemini`. -/
inductive GeminiErr where
  | generateFailed (e : String)
  | noCandidates
  | badPartType (t : String)
deriving DecidableEq, Repr

/-- The `error` values a worker can store in `ProcessingResult.Err`:
either a plain `fmt.Errorf` message, the error returned by
`getVideoTranscript`, or the error returned by the summarizer. -/
inductive GoError where
  | simple (s : String)
  | fromTranscript (e : TranscriptErr)
  | fromGemini (e : GeminiErr)
deriving DecidableEq, Repr

/-- `ProcessingResult` of src/main.go (lines 61-65).  The zero values of the
Go struct fields are the defaults here. -/
structure ProcessingResult where
  videoDetails : VideoDetails
  summary : String := ""
  err : Option GoError := none
deriving DecidableEq, Repr

/-- Outcome of one `yt-dlp` invocation: its combined output and, when the
command failed, its error. -/
structure FetchOutcome where
  output : String
  err : Option String
deriving DecidableEq, Repr

/-- Oracle environment for the external effects of `getVideoTranscript`:
`run a` is the outcome of the `yt-dlp` invocation on attempt `a` (attempts
are numbered from 1), `globPrimary` the result of the first
`filepath.Glob`, `globFallback` the matches of the fallback glob (whose
error is discarded by the source), and `openFile` the parsed subtitle items
of `astisub.OpenFile` (items / lines / line-item texts). -/
structure FetchEnv where
  mkdirErr : Option String := none
  run : Nat → FetchOutcome
  globPrimary : Except String (List String)
  globFallback : List String
  openFile : String → Except String (List (List (List String)))

/-- Boolean test that `pat` is a leading segment of the second list. -/
def listBeginsWith : List Char → List Char → Bool
  | [], _ => true
  | _ :: _, [] => false
  | p :: ps, c :: cs => p = c && listBeginsWith ps cs

/-- Boolean substring containment on character lists, embedding Go's
`strings.Contains`. -/
def listContainsSub (pat : List Char) : List Char → Bool
  | [] => pat.isEmpty
  | c :: cs => listBeginsWith pat (c :: cs) || listContainsSub pat cs

/-- The substring test of src/main.go lines 173 and 182: the output mentions
"no subtitles" or "no suitable subtitles found". -/
def containsNoSubs (s : String) : Bool :=
  listContainsSub "no subtitles".data s.data ||
    listContainsSub "no suitable subtitles found".data s.data

/-- How the retry loop of `getVideoTranscript` (lines 157-190) terminates:
an absence signal was seen, or the command succeeded with some output
(also covering the vacuous loop when `MaxTranscriptRetries < 1`, where the
zero values `err = nil`, `output = ""` survive), or every attempt failed
and the last error and output are kept. -/
inductive LoopExit where
  | noSubs
  | success (output : String)
  | failed (lastErr : String) (lastOutput : String)
deriving DecidableEq, Repr

/-- The retry loop of `getVideoTranscript`: `attempt` is the current attempt
number, the second argument the number of attempts still allowed.  Returns
the loop exit together with the number of `yt-dlp` invocations made and the
number of retry delays slept (`time.Sleep` runs only when the attempt
failed without the absence signal and further attempts remain). -/
def fetchLoop (run : Nat → FetchOutcome) : Nat → Nat → LoopExit × Nat × Nat
  | _, 0 => (.success "", 0, 0)
  | attempt, r + 1 =>
    let o := run attempt
    match o.err with
    | none =>
      if containsNoSubs o.output then (.noSubs, 1, 0)
      else (.success o.output, 1, 0)
    | some e =>
      if containsNoSubs o.output then (.noSubs, 1, 0)
      else if r = 0 then (.failed e o.output, 1, 0)
      else
        let t := fetchLoop run (attempt + 1) r
        (t.1, t.2.1 + 1, t.2.2 + 1)

/-- Embedding of Go's `strings.TrimSpace`: drop whitespace from both ends
of the character list. -/
def strTrim (s : String) : String :=
  ⟨((s.data.dropWhile Char.isWhitespace).reverse.dropWhile Char.isWhitespace).reverse⟩

/-- Transcript text extraction from the parsed subtitles (lines 220-229):
every line item's text followed by a space, one more space after each item,
then `strings.TrimSpace`. -/
def transcriptOfSubs (subs : List (List (List String))) : String :=
  strTrim
    (subs.foldl
      (fun acc item =>
        (item.foldl
            (fun acc2 line =>
              line.foldl (fun acc3 t => acc3 ++ t ++ " ") acc2)
            acc) ++ " ")
      "")

/-- Result of `getVideoTranscript` together with the instrumentation
counters: the Go pair `(string, error)` is `Except` (every return site has
either a nil error or an empty string), plus the number of `yt-dlp`
invocations and retry sleeps. -/
structure GVTTrace where
  ret : Except TranscriptErr String
  calls : Nat
  sleeps : Nat
deriving Repr

/-- Shallow embedding of `getVideoTranscript` (src/main.go lines 146-237)
over the oracle `FetchEnv`.  `Except.ok ""` is the absent-transcript
return `("", nil)`. -/
def getVideoTranscript (env : FetchEnv) (maxRetries : Nat) : GVTTrace :=
  match env.mkdirErr with
  | some e => ⟨.error (.mkdirFail e), 0, 0⟩
  | none =>
    match fetchLoop env.run 1 maxRetries with
    | (.noSubs, c, s) => ⟨.ok "", c, s⟩
    | (.failed e out, c, s) => ⟨.error (.ytdlpFail e out), c, s⟩
    | (.success _, c, s) =>
      match env.globPrimary with
      | .error ge => ⟨.error (.globFail ge), c, s⟩
      | .ok primary =>
        match (if primary.isEmpty then env.globFallback else primary) with
        | [] => ⟨.ok "", c, s⟩
        | f :: _ =>
          match env.openFile f with
          | .error oe => ⟨.error (.openFail oe), c, s⟩
          | .ok subs =>
            let fullTranscript := transcriptOfSubs subs
            if fullTranscript = "" then ⟨.ok "", c, s⟩
            else ⟨.ok fullTranscript, c, s⟩

/-- One part of a Gemini candidate's content: either `genai.Text` or a part
of some other dynamic type. -/
inductive GenPart where
  | text (s : String)
  | other (typeName : String)
deriving DecidableEq, Repr

/-- A Gemini response: the parts of each candidate's content. -/
structure GenResp where
  candidates : List (List GenPart)
deriving DecidableEq, Repr

/-- The literal returned by `summarizeTranscriptWithGemini` on an empty
transcript (src/main.go line 242). -/
def emptyTranscriptPlaceholder : String :=
  "Transcript was empty, no summary generated."

/-- Shallow embedding of `summarizeTranscriptWithGemini` (src/main.go lines
240-261); `generate` is the external `GenerateContent` call. -/
def summarizeTranscriptWithGemini (generate : String → Except String GenResp)
    (transcript : String) : Except GeminiErr String :=
  if transcript = "" then .ok emptyTranscriptPlaceholder
  else
    match generate transcript with
    | .error e => .error (.generateFailed e)
    | .ok resp =>
      match resp.candidates with
      | [] => .error .noCandidates
      | parts :: _ =>
        match parts with
        | [] => .error .noCandidates
        | .text s :: _ => .ok (strTrim s)
        | .other t :: _ => .error (.badPartType t)

/-- A worker's oracle environment: the fetch oracle, whether the Gemini
client was configured (`currentGeminiClient != nil`), and the generate
oracle. -/
structure WorkerEnv where
  fetch : FetchEnv
  geminiAvailable : Bool
  generate : String → Except String GenResp

/-- Shallow embedding of the worker goroutine body (src/main.go lines
330-379): the `ProcessingResult` the worker sends on the results channel. -/
def workerBody (env : WorkerEnv) (v : VideoDetails) (maxRetries : Nat) :
    ProcessingResult :=
  let r : ProcessingResult := { videoDetails := v }
  match (getVideoTranscript env.fetch maxRetries).ret with
  | .error te => { r with err := some (.fromTranscript te) }
  | .ok transcript =>
    if transcript = "" then
      { r with err := some (.simple "no transcript available") }
    else
      if env.geminiAvailable then
        match summarizeTranscriptWithGemini env.generate transcript with
        | .error se => { r with err := some (.fromGemini se) }
        | .ok summary => { r with summary := strTrim summary }
      else
        { r with
            err :=
              if r.err = none then
                some (.simple "summarization skipped (Gemini client not available)")
              else r.err }

/-- A run's environment: the videos delivered by the playlist source (in
source order), the semaphore capacity `ConcurrencyLimit`, the retry budget,
and the oracle environment of the worker spawned for index `i`. -/
structure RunEnv where
  videos : List VideoDetails
  limit : Nat
  maxRetries : Nat
  wenv : Nat → WorkerEnv

/-- The `ProcessingResult` that the worker dispatched for index `i`
eventually sends on the results channel. -/
def RunEnv.resultOf (env : RunEnv) (i : Nat) : ProcessingResult :=
  workerBody (env.wenv i) (env.videos.getD i ⟨"", ""⟩) env.maxRetries

/-- The shared state of `main`'s fan-out/fan-in (lines 321-391).  `running`
holds the indices of workers that were dispatched and have not yet sent
their result; `sent` the indices that sent their result but have not yet
released their semaphore slot; `chan` the result indices sitting in the
buffered results channel (in send order); `collected` the indices drained
by the main goroutine (in receive order); `closed` whether the results
channel has been closed.  Semaphore slots held = `running` plus `sent`. -/
structure CoordState where
  dispatched : Nat
  running : List Nat
  sent : List Nat
  chan : List Nat
  collected : List Nat
  closed : Bool
deriving DecidableEq, Repr

/-- The state before the dispatch loop starts. -/
def initState : CoordState :=
  { dispatched := 0, running := [], sent := [], chan := [], collected := [], closed := false }

/-- Interleaved small steps of `main`'s goroutines.
`dispatch`: the main loop acquires a semaphore slot (blocking while all
`limit` slots are held) and spawns the next worker.  `send`: a running
worker sends its result on the buffered channel (capacity `len(videos)`,
so it never blocks).  `release`: a worker that has sent runs its deferred
`<-semaphore`.  `closeChan`: once every worker has released (and hence
called `wg.Done`), `wg.Wait` returns and the closer goroutine closes the
channel.  `collect`: the main goroutine (after the dispatch loop) receives
the next buffered result and stores it in the `allResults` map. -/
inductive Step (env : RunEnv) : CoordState → CoordState → Prop where
  | dispatch (s : CoordState) :
      s.closed = false →
      s.dispatched < env.videos.length →
      s.running.length + s.sent.length < env.limit →
      Step env s { s with dispatched := s.dispatched + 1
                          running := s.running ++ [s.dispatched] }
  | send (s : CoordState) (i : Nat) :
      i ∈ s.running →
      Step env s { s with running := s.running.erase i
                          sent := s.sent ++ [i]
                          chan := s.chan ++ [i] }
  | release (s : CoordState) (i : Nat) :
      i ∈ s.sent →
      Step env s { s with sent := s.sent.erase i }
  | closeChan (s : CoordState) :
      s.dispatched = env.videos.length →
      s.running = [] →
      s.sent = [] →
      s.closed = false →
      Step env s { s with closed := true }
  | collect (s : CoordState) (i : Nat) (rest : List Nat) :
      s.dispatched = env.videos.length →
      s.chan = i :: rest →
      Step env s { s with chan := rest
                          collected := s.collected ++ [i] }

/-- States reachable by interleaving the goroutine steps from the initial
state. -/
inductive Reachable (env : RunEnv) : CoordState → Prop where
  | init : Reachable env initState
  | step {s t : CoordState} : Reachable env s → Step env s t → Reachable env t

/-- Normal termination: the results channel was closed and fully drained,
so the `range resultsChannel` loop has ended. -/
def Terminal (s : CoordState) : Prop :=
  s.closed = true ∧ s.chan = []

/-- The coordinator invariant: no over-dispatch; every dispatched index is
in exactly one of `running`, `chan`, `collected`; held semaphore slots
never exceed the capacity; and the channel is closed only after all
workers have sent and released. -/
def Inv (env : RunEnv) (s : CoordState) : Prop :=
  s.dispatched ≤ env.videos.length ∧
  (s.running ++ s.chan ++ s.collected).Perm (List.range s.dispatched) ∧
  s.running.length + s.sent.length ≤ env.limit ∧
  (s.closed = true → s.dispatched = env.videos.length ∧ s.running = [] ∧ s.sent = [])

/-- The `allResults` map of src/main.go lines 388-391: results are inserted
keyed by `VideoDetails.ID`, a later insert overwriting an earlier one, so a
lookup returns the last inserted result with the given id. -/
def lookupLast (rs : List ProcessingResult) (id : String) : Option ProcessingResult :=
  rs.foldl (fun acc r => if r.videoDetails.ID = id then some r else acc) none

/-- The batch handed to the report loop: the collected results keyed by
video id. -/
def batchOf (env : RunEnv) (s : CoordState) : String → Option ProcessingResult :=
  lookupLast (s.collected.map env.resultOf)

/-- Status line printed for one video by the report loop. -/
inductive ReportStatus where
  | missing
  | errored (e : GoError)
  | noSummaryNote
  | plain
deriving DecidableEq, Repr

/-- One block of the final report (lines 398-420). -/
structure ReportEntry where
  id : String
  title : String
  summaryShown : Option String
  status : ReportStatus
deriving DecidableEq, Repr

/-- The report block printed for `v`: on a missing result the video's own
id and title with a "Result missing" status; otherwise the result's id and
title, the summary line when the summary is non-empty, and the status line
chosen by the `Err`/empty-summary checks of lines 413-418. -/
def reportEntry (batch : String → Option ProcessingResult) (v : VideoDetails) :
    ReportEntry :=
  match batch v.ID with
  | none => ⟨v.ID, v.Title, none, .missing⟩
  | some r =>
    ⟨r.videoDetails.ID, r.videoDetails.Title,
      if r.summary = "" then none else some r.summary,
      match r.err with
      | some e => .errored e
      | none => if r.summary = "" then .noSummaryNote else .plain⟩

/-- The report: one entry per original video, in source order. -/
def reportEntries (videos : List VideoDetails)
    (batch : String → Option ProcessingResult) : List ReportEntry :=
  videos.map (reportEntry batch)

/-- Whether the loop iteration for this entry incremented
`successfulSummaries` (line 411): a result was found and its summary is
non-empty. -/
def countedSuccess (e : ReportEntry) : Bool :=
  e.summaryShown.isSome

/-- Whether the loop iteration for this entry incremented
`videosWithErrors` (lines 404 and 415): the result was missing, or was
found with a non-nil error. -/
def countedError (e : ReportEntry) : Bool :=
  match e.status with
  | .missing => true
  | .errored _ => true
  | _ => false

/-- Final value of the `successfulSummaries` counter. -/
def successCount (es : List ReportEntry) : Nat :=
  es.countP (fun e => countedSuccess e)

/-- Final value of the `videosWithErrors` counter. -/
def errorCount (es : List ReportEntry) : Nat :=
  es.countP (fun e => countedError e)

/-- The identifiers handed over by the source are pairwise distinct
(the Source's uniqueness contract). -/
def uniqueIDs (videos : List VideoDetails) : Prop :=
  (videos.map (fun v => v.ID)).Nodup

/-- Denotes a fetch oracle whose sole attempt reports the absence marker on
a failing exit. -/
def envC5 : FetchEnv :=
  { run := fun _ => ⟨"video: no subtitles for this item", some "exit status 1"⟩
    globPrimary := .ok []
    globFallback := []
    openFile := fun _ => .error "unused" }

/-- Denotes a fetch oracle that fails transiently on every attempt. -/
def envC6 : FetchEnv :=
  { run := fun _ => ⟨"HTTP Error 429: Too Many Requests", some "exit status 1"⟩
    globPrimary := .ok []
    globFallback := []
    openFile := fun _ => .error "unused" }

/-- Denotes a fetch oracle whose command succeeds but leaves no artifact. -/
def envC7a : FetchEnv :=
  { run := fun _ => ⟨"[download] finished", none⟩
    globPrimary := .ok []
    globFallback := []
    openFile := fun _ => .error "unused" }

/-- Denotes a fetch oracle whose artifact parses to whitespace only. -/
def envC7b : FetchEnv :=
  { run := fun _ => ⟨"[download] finished", none⟩
    globPrimary := .ok ["t/v.en.vtt"]
    globFallback := []
    openFile := fun _ => .ok [[[""]], []] }

/-- Denotes a worker environment whose fetch reports the absence signal at
once. -/
def envWorkerAbsent : WorkerEnv :=
  { fetch := envC5
    geminiAvailable := true
    generate := fun _ => .ok ⟨[[.text "unused"]]⟩ }

/-- Denotes a fetch oracle whose command succeeds and whose artifact parses
to a non-empty transcript. -/
def fetchEnvOK : FetchEnv :=
  { run := fun _ => ⟨"[info] downloaded", none⟩
    globPrimary := .ok ["t/v1.en.vtt"]
    globFallback := []
    openFile := fun _ => .ok [[["hello"]]] }

/-- Denotes a one-video run whose summarizer successfully returns
whitespace-only text, so the worker stores an empty summary and no
error. -/
def runEnvWS : RunEnv :=
  { videos := [⟨"v1", "T1"⟩]
    limit := 5
    maxRetries := 3
    wenv := fun _ => ⟨fetchEnvOK, true, fun _ => .ok ⟨[[.text " "]]⟩⟩ }

/-- The terminal state of the `runEnvWS` run after dispatch, send, release,
collect, and channel close. -/
def stateWS : CoordState :=
  { dispatched := 1, running := [], sent := [], chan := [], collected := [0]
    closed := true }


/-! ## Transcript acquirer: retry-loop lemmas -/

/-- One-step unfolding of the retry loop when at least one attempt
remains. -/
theorem fetchLoop_cons (run : Nat → FetchOutcome) (attempt r : Nat) :
    fetchLoop run attempt (r + 1) =
      match (run attempt).err with
      | none =>
        if containsNoSubs (run attempt).output then (.noSubs, 1, 0)
        else (.success (run attempt).output, 1, 0)
      | some e =>
        if containsNoSubs (run attempt).output then (.noSubs, 1, 0)
        else if r = 0 then (.failed e (run attempt).output, 1, 0)
        else ((fetchLoop run (attempt + 1) r).1,
              (fetchLoop run (attempt + 1) r).2.1 + 1,
              (fetchLoop run (attempt + 1) r).2.2 + 1) := rfl

/-- If every attempt in the window fails without the absence signal, the
loop makes all its attempts, sleeps between consecutive ones, and exits
with the last attempt's error and output. -/
theorem fetchLoop_all_fail (run : Nat → FetchOutcome) :
    ∀ r a e, 1 ≤ r →
      (∀ k, a ≤ k → k < a + r →
        (run k).err ≠ none ∧ containsNoSubs (run k).output = false) →
      (run (a + r - 1)).err = some e →
      fetchLoop run a r = (.failed e (run (a + r - 1)).output, r, r - 1) := by
  intro r
  induction r with
  | zero => intro a e h; omega
  | succ n ih =>
    intro a e _ hfail hlast
    have hthis := hfail a (Nat.le_refl a) (by omega)
    obtain ⟨eo, heo⟩ : ∃ eo, (run a).err = some eo := by
      cases h : (run a).err
      · exact absurd h hthis.1
      · exact ⟨_, rfl⟩
    rcases n with _ | n'
    · have ha : a + 1 - 1 = a := by omega
      rw [ha] at hlast
      rw [heo] at hlast
      rw [fetchLoop_cons]
      simp [heo, hthis.2, Option.some.inj hlast]
    · have harith : a + (n' + 1 + 1) - 1 = a + 1 + (n' + 1) - 1 := by omega
      rw [harith] at hlast ⊢
      have hrec := ih (a + 1) e (by omega)
        (fun k hk1 hk2 => hfail k (by omega) (by omega)) hlast
      rw [fetchLoop_cons]
      simp [heo, hthis.2, hrec]

/-- Claim C5: if the external fetch reports the definitive no-subtitles
signal on its first attempt (whether or not the command exit was
successful), `getVideoTranscript` returns the absent transcript `("", nil)`
immediately, having run the fetch exactly once and slept no retry delay. -/
theorem claim_C5 (env : FetchEnv) (m : Nat) (hm : env.mkdirErr = none)
    (h1 : 1 ≤ m) (habs : containsNoSubs (env.run 1).output = true) :
    getVideoTranscript env m = ⟨.ok "", 1, 0⟩ := by
  obtain ⟨k, rfl⟩ : ∃ k, m = k + 1 := ⟨m - 1, by omega⟩
  have hloop : fetchLoop env.run 1 (k + 1) = (.noSubs, 1, 0) := by
    rw [fetchLoop_cons]
    cases he : (env.run 1).err <;> simp [habs]
  simp only [getVideoTranscript, hm, hloop]


/-- Witness for claim C5 at a concrete environment and the default retry
budget 3. -/
theorem claim_C5_witness : getVideoTranscript envC5 3 = ⟨.ok "", 1, 0⟩ :=
  claim_C5 envC5 3 rfl (by omega) (by decide)

/-- Claim C6: if the fetch fails transiently on every one of the
`maxRetries` attempts (never showing the absence signal), the acquirer runs
the fetch exactly `maxRetries` times, sleeps between consecutive attempts,
and returns a failure wrapping the last attempt's error and output. -/
theorem claim_C6 (env : FetchEnv) (m : Nat) (e : String)
    (hm : env.mkdirErr = none) (h1 : 1 ≤ m)
    (hfail : ∀ k, 1 ≤ k → k ≤ m →
      (env.run k).err ≠ none ∧ containsNoSubs (env.run k).output = false)
    (hlast : (env.run m).err = some e) :
    getVideoTranscript env m =
      ⟨.error (.ytdlpFail e (env.run m).output), m, m - 1⟩ := by
  have hm' : 1 + m - 1 = m := by omega
  have hloop := fetchLoop_all_fail env.run m 1 e h1
    (fun k hk1 hk2 => hfail k hk1 (by omega)) (by rw [hm']; exact hlast)
  rw [hm'] at hloop
  simp only [getVideoTranscript, hm, hloop]


/-- Witness for claim C6 with the default retry budget 3: three calls, two
sleeps, failure carrying the last error and output. -/
theorem claim_C6_witness :
    getVideoTranscript envC6 3 =
      ⟨.error (.ytdlpFail "exit status 1" "HTTP Error 429: Too Many Requests"), 3, 2⟩ :=
  claim_C6 envC6 3 "exit status 1" rfl (by omega)
    (fun k _ _ =>
      ⟨by simp [envC6],
        by show containsNoSubs "HTTP Error 429: Too Many Requests" = false; decide⟩)
    rfl

/-- Claim C7: when the fetch loop exits successfully without the absence
signal, both the no-artifact case (primary and fallback globs empty) and
the empty-after-normalization parse case make `getVideoTranscript` return
the absent transcript `("", nil)` rather than an error. -/
theorem claim_C7 (env : FetchEnv) (m : Nat) (out : String) (c sl : Nat)
    (hm : env.mkdirErr = none)
    (hl : fetchLoop env.run 1 m = (.success out, c, sl)) :
    ((env.globPrimary = Except.ok [] ∧ env.globFallback = []) →
      (getVideoTranscript env m).ret = .ok "") ∧
    (∀ l f rest subs, env.globPrimary = Except.ok l →
      (if l.isEmpty then env.globFallback else l) = f :: rest →
      env.openFile f = Except.ok subs →
      transcriptOfSubs subs = "" →
      (getVideoTranscript env m).ret = .ok "") := by
  constructor
  · rintro ⟨hp, hf⟩
    simp only [getVideoTranscript, hm, hl, hp, hf]
    simp
  · intro l f rest subs hp hmatch hopen hempty
    simp only [getVideoTranscript, hm, hl, hp, hmatch, hopen, hempty]
    simp


/-- Witness for claim C7: the no-artifact case and the empty-parse case
both yield the absent transcript. -/
theorem claim_C7_witness :
    (getVideoTranscript envC7a 3).ret = .ok "" ∧
    (getVideoTranscript envC7b 3).ret = .ok "" :=
  ⟨(claim_C7 envC7a 3 "[download] finished" 1 0 rfl (by decide)).1 ⟨rfl, rfl⟩,
    (claim_C7 envC7b 3 "[download] finished" 1 0 rfl (by decide)).2
      ["t/v.en.vtt"] "t/v.en.vtt" [] [[[""]], []] rfl rfl rfl (by decide)⟩

/-! ## Worker lemmas and claims -/

/-- The worker always reports the item it was dispatched for. -/
theorem workerBody_videoDetails (env : WorkerEnv) (v : VideoDetails) (m : Nat) :
    (workerBody env v m).videoDetails = v := by
  cases h : (getVideoTranscript env.fetch m).ret with
  | error te => simp [workerBody, h]
  | ok t =>
    by_cases ht : t = ""
    · simp [workerBody, h, ht]
    · by_cases hg : env.geminiAvailable
      · cases hs : summarizeTranscriptWithGemini env.generate t <;>
          simp [workerBody, h, ht, hg, hs]
      · simp [workerBody, h, ht, hg]

/-- A worker's result never carries both a non-empty summary and a non-nil
error. -/
theorem workerBody_excl (env : WorkerEnv) (v : VideoDetails) (m : Nat) :
    (workerBody env v m).summary = "" ∨ (workerBody env v m).err = none := by
  cases h : (getVideoTranscript env.fetch m).ret with
  | error te => simp [workerBody, h]
  | ok t =>
    by_cases ht : t = ""
    · simp [workerBody, h, ht]
    · by_cases hg : env.geminiAvailable
      · cases hs : summarizeTranscriptWithGemini env.generate t <;>
          simp [workerBody, h, ht, hg, hs]
      · simp [workerBody, h, ht, hg]

/-- Claim C4: the worker follows the step order of spec section 4.3 — an
acquisition failure is stored as the result's error; an absent transcript
yields the "no transcript available" error; with a transcript but no
configured summarizer the "summarization skipped" error is stored; a
summarization failure is stored as its cause; otherwise the result carries
the trimmed summary text and no error.  Moreover, when the transcript is
absent/empty or acquisition failed, the result does not depend on the
summarizer oracle at all (the summarizer is not invoked). -/
theorem claim_C4 (env : WorkerEnv) (v : VideoDetails) (m : Nat)
    (g₁ g₂ : String → Except String GenResp) :
    (∀ te, (getVideoTranscript env.fetch m).ret = .error te →
      workerBody env v m = ⟨v, "", some (.fromTranscript te)⟩) ∧
    ((getVideoTranscript env.fetch m).ret = .ok "" →
      workerBody env v m = ⟨v, "", some (.simple "no transcript available")⟩) ∧
    (∀ t, (getVideoTranscript env.fetch m).ret = .ok t → t ≠ "" →
      env.geminiAvailable = false →
      workerBody env v m =
        ⟨v, "", some (.simple "summarization skipped (Gemini client not available)")⟩) ∧
    (∀ t ge, (getVideoTranscript env.fetch m).ret = .ok t → t ≠ "" →
      env.geminiAvailable = true →
      summarizeTranscriptWithGemini env.generate t = .error ge →
      workerBody env v m = ⟨v, "", some (.fromGemini ge)⟩) ∧
    (∀ t su, (getVideoTranscript env.fetch m).ret = .ok t → t ≠ "" →
      env.geminiAvailable = true →
      summarizeTranscriptWithGemini env.generate t = .ok su →
      workerBody env v m = ⟨v, strTrim su, none⟩) ∧
    (((getVideoTranscript env.fetch m).ret = .ok "" ∨
        (∃ te, (getVideoTranscript env.fetch m).ret = .error te)) →
      workerBody { env with generate := g₁ } v m =
        workerBody { env with generate := g₂ } v m) := by
  refine ⟨?_, ?_, ?_, ?_, ?_, ?_⟩
  · intro te h
    simp [workerBody, h]
  · intro h
    simp [workerBody, h]
  · intro t h ht hg
    simp [workerBody, h, ht, hg]
  · intro t ge h ht hg hs
    simp [workerBody, h, ht, hg, hs]
  · intro t su h ht hg hs
    simp [workerBody, h, ht, hg, hs]
  · rintro (h | ⟨te, h⟩) <;> simp [workerBody, h]


/-- Witness for claim C4: on an absent transcript the worker produces the
"no transcript available" failure and ignores the summarizer oracle. -/
theorem claim_C4_witness :
    workerBody envWorkerAbsent ⟨"v1", "Title 1"⟩ 3 =
      ⟨⟨"v1", "Title 1"⟩, "", some (.simple "no transcript available")⟩ ∧
    workerBody { envWorkerAbsent with generate := fun _ => .error "a" } ⟨"v1", "Title 1"⟩ 3 =
      workerBody { envWorkerAbsent with generate := fun _ => .error "b" } ⟨"v1", "Title 1"⟩ 3 :=
  ⟨(claim_C4 envWorkerAbsent ⟨"v1", "Title 1"⟩ 3 (fun _ => .error "a")
      (fun _ => .error "b")).2.1 rfl,
    (claim_C4 envWorkerAbsent ⟨"v1", "Title 1"⟩ 3 (fun _ => .error "a")
      (fun _ => .error "b")).2.2.2.2.2 (Or.inl rfl)⟩

/-- Claim C8: a worker-produced `ProcessingResult` never carries both a
non-empty summary and a non-nil error. -/
theorem claim_C8 (env : WorkerEnv) (v : VideoDetails) (m : Nat) :
    (workerBody env v m).summary = "" ∨ (workerBody env v m).err = none :=
  workerBody_excl env v m

/-- Claim C10: on the empty input string the summarize operation returns
the fixed placeholder with no error, independently of the external
generate oracle (no external call is made); the placeholder is non-empty,
so a result carrying it is counted as a produced summary by the report
loop. -/
theorem claim_C10 (g₁ g₂ : String → Except String GenResp)
    (v : VideoDetails) (batch : String → Option ProcessingResult)
    (r : ProcessingResult) (hb : batch v.ID = some r)
    (hs : r.summary = emptyTranscriptPlaceholder) :
    summarizeTranscriptWithGemini g₁ "" = .ok emptyTranscriptPlaceholder ∧
    summarizeTranscriptWithGemini g₁ "" = summarizeTranscriptWithGemini g₂ "" ∧
    emptyTranscriptPlaceholder ≠ "" ∧
    countedSuccess (reportEntry batch v) = true := by
  refine ⟨rfl, rfl, by decide, ?_⟩
  simp [reportEntry, hb, countedSuccess, hs, emptyTranscriptPlaceholder]

/-- Witness for claim C10 at a concrete batch holding a placeholder-summary
result. -/
theorem claim_C10_witness :
    summarizeTranscriptWithGemini (fun _ => .error "a") "" =
      .ok emptyTranscriptPlaceholder ∧
    summarizeTranscriptWithGemini (fun _ => .error "a") "" =
      summarizeTranscriptWithGemini (fun _ => .ok ⟨[]⟩) "" ∧
    emptyTranscriptPlaceholder ≠ "" ∧
    countedSuccess
      (reportEntry (fun _ => some ⟨⟨"v1", "T1"⟩, emptyTranscriptPlaceholder, none⟩)
        ⟨"v1", "T1"⟩) = true :=
  claim_C10 (fun _ => .error "a") (fun _ => .ok ⟨[]⟩) ⟨"v1", "T1"⟩
    (fun _ => some ⟨⟨"v1", "T1"⟩, emptyTranscriptPlaceholder, none⟩)
    ⟨⟨"v1", "T1"⟩, emptyTranscriptPlaceholder, none⟩ rfl rfl

/-! ## Coordinator invariant -/

/-- The invariant holds in the initial state. -/
theorem inv_init (env : RunEnv) : Inv env initState := by
  refine ⟨Nat.zero_le _, by simp [initState], by simp [initState], ?_⟩
  intro h
  simp [initState] at h

/-- Every coordinator step preserves the invariant. -/
theorem step_inv {env : RunEnv} {s t : CoordState} (hstep : Step env s t)
    (ih : Inv env s) : Inv env t := by
  obtain ⟨h1, h2, h3, h4⟩ := ih
  cases hstep with
  | dispatch hcl hd hl =>
    refine ⟨hd, ?_, ?_, ?_⟩
    · show ((s.running ++ [s.dispatched]) ++ s.chan ++ s.collected).Perm
        (List.range (s.dispatched + 1))
      rw [List.range_succ]
      have e1 : (s.running ++ [s.dispatched]) ++ s.chan ++ s.collected
          = s.running ++ s.dispatched :: (s.chan ++ s.collected) := by simp
      rw [e1]
      refine List.Perm.trans List.perm_middle ?_
      refine List.Perm.trans (List.Perm.cons _ (by simpa using h2)) ?_
      simpa using
        @List.perm_append_comm Nat [s.dispatched] (List.range s.dispatched)
    · show (s.running ++ [s.dispatched]).length + s.sent.length ≤ env.limit
      simp only [List.length_append, List.length_singleton]
      omega
    · intro h
      rw [hcl] at h
      simp at h
  | send i hi =>
    refine ⟨h1, ?_, ?_, ?_⟩
    · show (s.running.erase i ++ (s.chan ++ [i]) ++ s.collected).Perm
        (List.range s.dispatched)
      have hrp : s.running.Perm (i :: s.running.erase i) := List.perm_cons_erase hi
      have e1 : s.running.erase i ++ (s.chan ++ [i]) ++ s.collected
          = (s.running.erase i ++ s.chan) ++ i :: s.collected := by simp
      rw [e1]
      refine List.Perm.trans List.perm_middle ?_
      have step1 : ((i :: s.running.erase i) ++ s.chan ++ s.collected).Perm
          (s.running ++ s.chan ++ s.collected) :=
        (hrp.symm.append_right s.chan).append_right s.collected
      exact List.Perm.trans (by simpa using step1) h2
    · show (s.running.erase i).length + (s.sent ++ [i]).length ≤ env.limit
      have hl1 : (s.running.erase i).length = s.running.length - 1 :=
        List.length_erase_of_mem hi
      have hl2 : 0 < s.running.length := List.length_pos_of_mem hi
      simp only [hl1, List.length_append, List.length_singleton]
      omega
    · intro h
      obtain ⟨_, hR, _⟩ := h4 h
      rw [hR] at hi
      cases hi
  | release i hi =>
    refine ⟨h1, by simpa using h2, ?_, ?_⟩
    · show s.running.length + (s.sent.erase i).length ≤ env.limit
      have hl1 : (s.sent.erase i).length = s.sent.length - 1 :=
        List.length_erase_of_mem hi
      omega
    · intro h
      obtain ⟨_, _, hS⟩ := h4 h
      rw [hS] at hi
      cases hi
  | closeChan hd hR hS hcl =>
    exact ⟨h1, by simpa using h2, by simpa using h3, fun _ => ⟨hd, hR, hS⟩⟩
  | collect i rest hd hc =>
    have h2' : (s.running ++ i :: (rest ++ s.collected)).Perm
        (List.range s.dispatched) := by
      have e0 : s.running ++ s.chan ++ s.collected
          = s.running ++ i :: (rest ++ s.collected) := by simp [hc]
      rw [← e0]
      exact h2
    have h3' : (i :: (s.running ++ (rest ++ s.collected))).Perm
        (List.range s.dispatched) := List.Perm.trans List.perm_middle.symm h2'
    refine ⟨h1, ?_, by simpa using h3, ?_⟩
    · show (s.running ++ rest ++ (s.collected ++ [i])).Perm
        (List.range s.dispatched)
      have e1 : s.running ++ rest ++ (s.collected ++ [i])
          = (s.running ++ rest ++ s.collected) ++ [i] := by simp
      rw [e1]
      refine List.Perm.trans List.perm_append_comm ?_
      simpa [List.append_assoc] using h3'
    · intro h
      obtain ⟨hd', hR, hS⟩ := h4 h
      exact ⟨hd', hR, hS⟩

/-- Every reachable coordinator state satisfies the invariant. -/
theorem reachable_inv {env : RunEnv} {s : CoordState} (h : Reachable env s) :
    Inv env s := by
  induction h with
  | init => exact inv_init env
  | step _ hstep ih => exact step_inv hstep ih

/-! ## Terminal states, the batch map, and the report -/

/-- At any reachable terminal state all videos were dispatched, no worker
is outstanding, and the collected indices are a permutation of the input
indices. -/
theorem terminal_state {env : RunEnv} {s : CoordState} (hr : Reachable env s)
    (ht : Terminal s) :
    s.dispatched = env.videos.length ∧ s.running = [] ∧ s.sent = [] ∧
    s.collected.Perm (List.range env.videos.length) := by
  obtain ⟨h1, h2, h3, h4⟩ := reachable_inv hr
  obtain ⟨hd, hR, hS⟩ := h4 ht.1
  refine ⟨hd, hR, hS, ?_⟩
  have h2' := h2
  rw [hR, ht.2] at h2'
  simpa [hd] using h2'

/-- The worker for index `i` reports the `i`-th video's details. -/
theorem resultOf_videoDetails (env : RunEnv) (i : Nat)
    (hi : i < env.videos.length) :
    (env.resultOf i).videoDetails = env.videos[i] := by
  unfold RunEnv.resultOf
  rw [workerBody_videoDetails]
  exact List.getD_eq_getElem _ _ hi

/-- Unfolding of the map construction over the last inserted result. -/
theorem lookupLast_append (rs : List ProcessingResult) (r : ProcessingResult)
    (id : String) :
    lookupLast (rs ++ [r]) id =
      if r.videoDetails.ID = id then some r else lookupLast rs id := by
  simp [lookupLast, List.foldl_append]

/-- With unique identifiers, positions in the video list are determined by
their identifier. -/
theorem uniqueIDs_get_inj {videos : List VideoDetails} (hu : uniqueIDs videos)
    {i j : Nat} (hi : i < videos.length) (hj : j < videos.length)
    (h : (videos[i]).ID = (videos[j]).ID) : i = j := by
  have hi' : i < (videos.map (fun v => v.ID)).length := by simpa using hi
  have hj' : j < (videos.map (fun v => v.ID)).length := by simpa using hj
  have hinj := List.nodup_iff_injective_get.mp hu
  have heq : (videos.map (fun v => v.ID)).get ⟨i, hi'⟩
      = (videos.map (fun v => v.ID)).get ⟨j, hj'⟩ := by
    simpa using h
  simpa using hinj heq

/-- Looking up the `i`-th video's id in the map built from the results of
any index list containing `i` (all indices in range) returns exactly worker
`i`'s result. -/
theorem lookupLast_resultOf (env : RunEnv) (hu : uniqueIDs env.videos)
    (i : Nat) (hi : i < env.videos.length) :
    ∀ l : List Nat, (∀ j ∈ l, j < env.videos.length) → i ∈ l →
      lookupLast (l.map env.resultOf) ((env.videos[i]).ID)
        = some (env.resultOf i) := by
  intro l
  induction l using List.reverseRecOn with
  | nil => intro _ hmem; cases hmem
  | append_singleton l j ih =>
    intro hl hmem
    rw [List.map_append]
    simp only [List.map_cons, List.map_nil]
    rw [lookupLast_append]
    have hj : j < env.videos.length := hl j (by simp)
    by_cases hij : j = i
    · subst hij
      rw [resultOf_videoDetails env j hj]
      simp
    · have hne : ¬((env.resultOf j).videoDetails.ID
          = (env.videos[i]).ID) := by
        rw [resultOf_videoDetails env j hj]
        intro hcontra
        exact hij (uniqueIDs_get_inj hu hj hi hcontra)
      rw [if_neg hne]
      refine ih (fun k hk => hl k (by simp [hk])) ?_
      rcases List.mem_append.mp hmem with h | h
      · exact h
      · exfalso
        simp at h
        exact hij h.symm

/-- At a reachable terminal state with unique identifiers, the batch maps
each video's id to exactly its worker's result. -/
theorem terminal_batch {env : RunEnv} {s : CoordState} (hr : Reachable env s)
    (ht : Terminal s) (hu : uniqueIDs env.videos)
    (i : Nat) (hi : i < env.videos.length) :
    batchOf env s ((env.videos[i]).ID) = some (env.resultOf i) := by
  obtain ⟨hd, hR, hS, hperm⟩ := terminal_state hr ht
  refine lookupLast_resultOf env hu i hi s.collected ?_ ?_
  · intro j hj
    have := hperm.mem_iff.mp hj
    simpa using this
  · exact hperm.mem_iff.mpr (by simpa using hi)

/-- At a reachable terminal state with unique identifiers, the report block
for video `i` is determined by worker `i`'s result. -/
theorem reportEntry_terminal {env : RunEnv} {s : CoordState}
    (hr : Reachable env s) (ht : Terminal s) (hu : uniqueIDs env.videos)
    (i : Nat) (hi : i < env.videos.length) :
    reportEntry (batchOf env s) (env.videos[i]) =
      ⟨(env.videos[i]).ID, (env.videos[i]).Title,
        (if (env.resultOf i).summary = "" then none
          else some (env.resultOf i).summary),
        (match (env.resultOf i).err with
          | some e => .errored e
          | none =>
            if (env.resultOf i).summary = "" then .noSummaryNote
            else .plain)⟩ := by
  unfold reportEntry
  rw [terminal_batch hr ht hu i hi]
  simp only [resultOf_videoDetails env i hi]

/-- Claim C1: for every run terminating normally (any interleaving of
worker completions) with unique source ids, the final report lists exactly
the source's work items in the source's order — entry `i` shows video `i`'s
id and title, once each. -/
theorem claim_C1 (env : RunEnv) (s : CoordState) (hr : Reachable env s)
    (ht : Terminal s) (hu : uniqueIDs env.videos) :
    (reportEntries env.videos (batchOf env s)).map (fun e => (e.id, e.title))
      = env.videos.map (fun v => (v.ID, v.Title)) ∧
    (reportEntries env.videos (batchOf env s)).length = env.videos.length := by
  constructor
  · unfold reportEntries
    rw [List.map_map]
    apply List.map_congr_left
    intro v hv
    obtain ⟨⟨i, hi⟩, hget⟩ := List.mem_iff_get.mp hv
    rw [← hget]
    simp only [Function.comp_apply, List.get_eq_getElem]
    rw [reportEntry_terminal hr ht hu i hi]
  · simp [reportEntries]

/-- Claim C2: in every reachable state the number of held semaphore slots
(workers dispatched and not yet released) is at most the concurrency limit;
in particular so is the number of workers still executing their fetch or
summarize step. -/
theorem claim_C2 (env : RunEnv) (s : CoordState) (hr : Reachable env s) :
    s.running.length + s.sent.length ≤ env.limit ∧
    s.running.length ≤ env.limit := by
  obtain ⟨_, _, h3, _⟩ := reachable_inv hr
  exact ⟨h3, by omega⟩

/-- Witness for claim C2 at a concrete environment and the initial state. -/
theorem claim_C2_witness :
    initState.running.length + initState.sent.length ≤ runEnvWS.limit ∧
    initState.running.length ≤ runEnvWS.limit :=
  claim_C2 runEnvWS initState Reachable.init

/-- Claim C3: at every reachable terminal state with unique identifiers the
collected results are exactly one per dispatched work item (no duplicates,
no omissions: the collected indices are a permutation of all input
indices), no worker is still outstanding when the batch is declared
complete, and the batch maps each item's id to its worker's result. -/
theorem claim_C3 (env : RunEnv) (s : CoordState) (hr : Reachable env s)
    (ht : Terminal s) (hu : uniqueIDs env.videos) :
    s.collected.Perm (List.range env.videos.length) ∧
    s.running = [] ∧ s.sent = [] ∧
    ∀ i (hi : i < env.videos.length),
      batchOf env s ((env.videos[i]).ID) = some (env.resultOf i) := by
  obtain ⟨hd, hR, hS, hperm⟩ := terminal_state hr ht
  exact ⟨hperm, hR, hS, fun i hi => terminal_batch hr ht hu i hi⟩

/-! ## A concrete terminating run -/

/-- The whitespace-summary run reaches its terminal state by dispatching,
sending, releasing, collecting, and closing the channel. -/
theorem reach_stateWS : Reachable runEnvWS stateWS := by
  have r0 : Reachable runEnvWS initState := Reachable.init
  have r1 : Reachable runEnvWS ⟨1, [0], [], [], [], false⟩ :=
    r0.step (by
      have h : Step runEnvWS initState _ :=
        Step.dispatch initState rfl (by decide) (by decide)
      exact h)
  have r2 : Reachable runEnvWS ⟨1, [], [0], [0], [], false⟩ :=
    r1.step (by
      have h : Step runEnvWS ⟨1, [0], [], [], [], false⟩ _ :=
        Step.send ⟨1, [0], [], [], [], false⟩ 0 (by decide)
      exact h)
  have r3 : Reachable runEnvWS ⟨1, [], [], [0], [], false⟩ :=
    r2.step (by
      have h : Step runEnvWS ⟨1, [], [0], [0], [], false⟩ _ :=
        Step.release ⟨1, [], [0], [0], [], false⟩ 0 (by decide)
      exact h)
  have r4 : Reachable runEnvWS ⟨1, [], [], [], [0], false⟩ :=
    r3.step (by
      have h : Step runEnvWS ⟨1, [], [], [0], [], false⟩ _ :=
        Step.collect ⟨1, [], [], [0], [], false⟩ 0 [] (by decide) rfl
      exact h)
  exact r4.step (by
    have h : Step runEnvWS ⟨1, [], [], [], [0], false⟩ _ :=
      Step.closeChan ⟨1, [], [], [], [0], false⟩ (by decide) rfl rfl rfl
    exact h)

/-! ## Report counters -/

/-- Counting over a list equals counting over its index range when the
predicates agree pointwise. -/
theorem countP_eq_countP_range {α : Type} (l : List α) (p : α → Bool) :
    ∀ q : Nat → Bool, (∀ i (hi : i < l.length), p (l.get ⟨i, hi⟩) = q i) →
      l.countP p = (List.range l.length).countP q := by
  induction l with
  | nil => intro q _; simp
  | cons v vs ih =>
    intro q h
    have h0 : p v = q 0 := h 0 (by simp)
    have htail : ∀ i (hi : i < vs.length), p (vs.get ⟨i, hi⟩) = q (i + 1) := by
      intro i hi
      have := h (i + 1) (by simpa using Nat.succ_lt_succ hi)
      simpa using this
    rw [List.countP_cons, List.length_cons, List.range_succ_eq_map,
      List.countP_cons, List.countP_map,
      ih (fun i => q (i + 1)) htail]
    simp [h0, Function.comp_def, Nat.succ_eq_add_one]

/-- Three pointwise mutually exclusive and jointly exhaustive counters add
up to the length. -/
theorem countP_three_partition {α : Type} (l : List α) (b1 b2 b3 : α → Bool)
    (h : ∀ a ∈ l, (b1 a).toNat + (b2 a).toNat + (b3 a).toNat = 1) :
    l.countP b1 + l.countP b2 + l.countP b3 = l.length := by
  induction l with
  | nil => simp
  | cons a as ih =>
    have ha := h a (by simp)
    have has := ih (fun x hx => h x (by simp [hx]))
    simp only [List.countP_cons, List.length_cons]
    cases hb1 : b1 a <;> cases hb2 : b2 a <;> cases hb3 : b3 a <;>
      rw [hb1, hb2, hb3] at ha <;> simp at ha ⊢ <;> omega

/-- A worker's result never carries both outcome fields (restated for the
dispatched worker of index `i`). -/
theorem resultOf_excl (env : RunEnv) (i : Nat) :
    (env.resultOf i).summary = "" ∨ (env.resultOf i).err = none :=
  workerBody_excl _ _ _

/-- The report iteration for video `i` increments `successfulSummaries`
exactly when worker `i`'s summary is non-empty. -/
theorem countedSuccess_terminal {env : RunEnv} {s : CoordState}
    (hr : Reachable env s) (ht : Terminal s) (hu : uniqueIDs env.videos)
    (i : Nat) (hi : i < env.videos.length) :
    countedSuccess (reportEntry (batchOf env s) (env.videos[i]))
      = decide ((env.resultOf i).summary ≠ "") := by
  rw [reportEntry_terminal hr ht hu i hi]
  by_cases hsum : (env.resultOf i).summary = "" <;>
    simp [countedSuccess, hsum]

/-- The report iteration for video `i` increments `videosWithErrors`
exactly when worker `i`'s error is non-nil. -/
theorem countedError_terminal {env : RunEnv} {s : CoordState}
    (hr : Reachable env s) (ht : Terminal s) (hu : uniqueIDs env.videos)
    (i : Nat) (hi : i < env.videos.length) :
    countedError (reportEntry (batchOf env s) (env.videos[i]))
      = decide ((env.resultOf i).err ≠ none) := by
  rw [reportEntry_terminal hr ht hu i hi]
  cases herr : (env.resultOf i).err
  · by_cases hsum : (env.resultOf i).summary = "" <;>
      simp [countedError, herr, hsum]
  · simp [countedError, herr]

/-- Amended claim C9: at every reachable terminal state with unique
identifiers the success counter equals the number of items whose result
carries a non-empty summary, and the error counter equals the number of
items whose result carries a non-nil error.  An item whose result has a nil
error and an empty summary is counted in neither tally, and the three
classes together account for every original item exactly once. -/
theorem claim_C9_amended (env : RunEnv) (s : CoordState) (hr : Reachable env s)
    (ht : Terminal s) (hu : uniqueIDs env.videos) :
    successCount (reportEntries env.videos (batchOf env s))
      = (List.range env.videos.length).countP
          (fun i => decide ((env.resultOf i).summary ≠ "")) ∧
    errorCount (reportEntries env.videos (batchOf env s))
      = (List.range env.videos.length).countP
          (fun i => decide ((env.resultOf i).err ≠ none)) ∧
    successCount (reportEntries env.videos (batchOf env s)) +
      errorCount (reportEntries env.videos (batchOf env s)) +
      (List.range env.videos.length).countP
        (fun i => decide ((env.resultOf i).err = none ∧ (env.resultOf i).summary = ""))
      = env.videos.length := by
  have hs : successCount (reportEntries env.videos (batchOf env s))
      = (List.range env.videos.length).countP
          (fun i => decide ((env.resultOf i).summary ≠ "")) := by
    unfold successCount reportEntries
    rw [List.countP_map]
    exact countP_eq_countP_range env.videos _ _ (fun i hi => by
      simp only [Function.comp_apply, List.get_eq_getElem]
      exact countedSuccess_terminal hr ht hu i hi)
  have he : errorCount (reportEntries env.videos (batchOf env s))
      = (List.range env.videos.length).countP
          (fun i => decide ((env.resultOf i).err ≠ none)) := by
    unfold errorCount reportEntries
    rw [List.countP_map]
    exact countP_eq_countP_range env.videos _ _ (fun i hi => by
      simp only [Function.comp_apply, List.get_eq_getElem]
      exact countedError_terminal hr ht hu i hi)
  refine ⟨hs, he, ?_⟩
  rw [hs, he]
  have hlen : (List.range env.videos.length).length = env.videos.length :=
    List.length_range _
  conv_rhs => rw [← hlen]
  apply countP_three_partition
  intro a _
  by_cases hsum : (env.resultOf a).summary = ""
  · cases herr : (env.resultOf a).err <;> simp [hsum, herr]
  · have herr : (env.resultOf a).err = none := by
      rcases resultOf_excl env a with h | h
      · exact absurd h hsum
      · exact h
    simp [hsum, herr]

/-- Counterexample to claim C9 as stated: in the whitespace-summary run the
single item's result is a no-summary outcome (empty summary, nil error),
yet the report counts it neither as a success nor as a failure — the
failure count is 0 while the number of items with a failure-or-no-summary
outcome is 1, and success plus failure is 0, not the total 1. -/
theorem claim_C9_counterexample :
    Reachable runEnvWS stateWS ∧ Terminal stateWS ∧ uniqueIDs runEnvWS.videos ∧
    runEnvWS.videos.length = 1 ∧
    batchOf runEnvWS stateWS "v1" = some ⟨⟨"v1", "T1"⟩, "", none⟩ ∧
    successCount (reportEntries runEnvWS.videos (batchOf runEnvWS stateWS)) = 0 ∧
    errorCount (reportEntries runEnvWS.videos (batchOf runEnvWS stateWS)) = 0 := by
  refine ⟨reach_stateWS, ⟨rfl, rfl⟩, ?_, rfl, ?_, ?_, ?_⟩
  · simp [uniqueIDs, runEnvWS]
  · rfl
  · rfl
  · rfl

/-- Witness for the amended claim C9 at the whitespace-summary run. -/
theorem claim_C9_amended_witness :
    successCount (reportEntries runEnvWS.videos (batchOf runEnvWS stateWS))
      = (List.range runEnvWS.videos.length).countP
          (fun i => decide ((runEnvWS.resultOf i).summary ≠ "")) ∧
    errorCount (reportEntries runEnvWS.videos (batchOf runEnvWS stateWS))
      = (List.range runEnvWS.videos.length).countP
          (fun i => decide ((runEnvWS.resultOf i).err ≠ none)) ∧
    successCount (reportEntries runEnvWS.videos (batchOf runEnvWS stateWS)) +
      errorCount (reportEntries runEnvWS.videos (batchOf runEnvWS stateWS)) +
      (List.range runEnvWS.videos.length).countP
        (fun i => decide ((runEnvWS.resultOf i).err = none ∧
          (runEnvWS.resultOf i).summary = ""))
      = runEnvWS.videos.length :=
  claim_C9_amended runEnvWS stateWS reach_stateWS ⟨rfl, rfl⟩
    (by simp [uniqueIDs, runEnvWS])

/-- Witness for claim C1 at the whitespace-summary run. -/
theorem claim_C1_witness :
    (reportEntries runEnvWS.videos (batchOf runEnvWS stateWS)).map
        (fun e => (e.id, e.title))
      = runEnvWS.videos.map (fun v => (v.ID, v.Title)) ∧
    (reportEntries runEnvWS.videos (batchOf runEnvWS stateWS)).length
      = runEnvWS.videos.length :=
  claim_C1 runEnvWS stateWS reach_stateWS ⟨rfl, rfl⟩
    (by simp [uniqueIDs, runEnvWS])

/-- Witness for claim C3 at the whitespace-summary run. -/
theorem claim_C3_witness :
    stateWS.collected.Perm (List.range runEnvWS.videos.length) ∧
    stateWS.running = [] ∧ stateWS.sent = [] ∧
    ∀ i (hi : i < runEnvWS.videos.length),
      batchOf runEnvWS stateWS ((runEnvWS.videos[i]).ID)
        = some (runEnvWS.resultOf i) :=
  claim_C3 runEnvWS stateWS reach_stateWS ⟨rfl, rfl⟩
    (by simp [uniqueIDs, runEnvWS])

end Summify
